import Mathlib

/-!
Verification development for the trad_monitor_vscode controller core:
the Python worker supervisor (`src/pythonClient.ts`), the line codec and
request correlation inside it, and the monitoring state machine
(`src/stateManager.ts`).  Each definition is a shallow embedding of the
corresponding TypeScript code; JS numbers are modelled as rationals,
strings as Lean strings or character lists, and the single-threaded
event loop as explicit event traces.
-/

/- ======================================================================
   Part 1: Process supervisor restart policy (src/pythonClient.ts)
   ====================================================================== -/

namespace PythonClient

/-- The fields of `PythonClient` relevant to the restart policy:
`restartCount`, `isConnected`, and whether a live (non-killed) process
handle is held (`pythonProcess !== null && !killed`). -/
structure ClientState where
  restartCount : Nat
  isConnected : Bool
  hasProcess : Bool
deriving DecidableEq

/-- `maxRestarts = 5` (pythonClient.ts line 15). -/
def maxRestarts : Nat := 5

/-- `startDaemon()` (pythonClient.ts lines 22-46).  `spawnOk` says whether
the `try` block runs to completion (spawn plus handler wiring).  On
success it sets `isConnected = true`, resets `restartCount` to `0` and
returns `true`; on an exception it returns `false`, and in particular
never touches `restartCount` (the reset at line 38 is only reached on the
success path). -/
def startDaemon (spawnOk : Bool) (s : ClientState) : ClientState × Bool :=
  if spawnOk then
    ({ restartCount := 0, isConnected := true, hasProcess := true }, true)
  else
    (s, false)

/-- Observable outcome of one `handleProcessExit` run: either the terminal
failure message (restart budget exhausted, no restart) or a restart
attempt whose inner `startDaemon` succeeded or failed. -/
inductive ExitOutcome where
  | terminalFailure : ExitOutcome
  | restartAttempted : Bool → ExitOutcome
deriving DecidableEq

/-- `handleProcessExit()` (pythonClient.ts lines 176-199), invoked from the
`exit` handler only when the exit code is nonzero and non-null (lines
157-164).  If `restartCount >= maxRestarts` it only reports a terminal
failure; otherwise it increments the counter and calls `startDaemon`
(whose success resets the counter to zero). -/
def handleProcessExit (restartOk : Bool) (s : ClientState) : ClientState × ExitOutcome :=
  if s.restartCount ≥ maxRestarts then
    (s, ExitOutcome.terminalFailure)
  else
    let s1 : ClientState := { s with restartCount := s.restartCount + 1 }
    ((startDaemon restartOk s1).1, ExitOutcome.restartAttempted restartOk)

/-- Events driving the supervisor: an external `startDaemon()` call (from
`StateManager.start()`), or an unexpected worker exit (nonzero, non-null
exit code) whose automatic restart attempt succeeds or fails as given. -/
inductive ClientEvent where
  | extStart : Bool → ClientEvent
  | unexpectedExit : Bool → ClientEvent
deriving DecidableEq

/-- One event-loop step of the supervisor.  An unexpected exit produces an
observable `ExitOutcome`. -/
def clientStep (s : ClientState) : ClientEvent → ClientState × Option ExitOutcome
  | ClientEvent.extStart ok => ((startDaemon ok s).1, none)
  | ClientEvent.unexpectedExit ok =>
      let p := handleProcessExit ok s
      (p.1, some p.2)

/-- Run a trace of supervisor events, collecting the exit outcomes. -/
def runClient (s : ClientState) : List ClientEvent → ClientState × List ExitOutcome
  | [] => (s, [])
  | e :: es =>
      let p := clientStep s e
      let q := runClient p.1 es
      (q.1, p.2.toList ++ q.2)

end PythonClient

/- ======================================================================
   Part 2: Monitoring state machine and aggregator (src/stateManager.ts)
   ====================================================================== -/

/-- `MonitoringState` string-literal enum (types/stock.ts). -/
inductive MonitoringState where
  | stopped : MonitoringState
  | starting : MonitoringState
  | running : MonitoringState
  | stopping : MonitoringState
  | error : MonitoringState
deriving DecidableEq

/-- `StockData` (types/stock.ts); JS numbers modelled as rationals,
the epoch-ms timestamp as a natural number. -/
structure StockData where
  code : String
  name : String
  currentPrice : ℚ
  buyPrice : ℚ
  quantity : ℚ
  profitAmount : ℚ
  profitPercent : ℚ
  marketValue : ℚ
  costBasis : ℚ
  change : ℚ
  changePercent : ℚ
  lastUpdate : Nat
  enabled : Bool
deriving DecidableEq

/-- `SummaryData` (types/stock.ts). -/
structure SummaryData where
  totalProfit : ℚ
  totalProfitPercent : ℚ
  totalMarketValue : ℚ
  totalCostBasis : ℚ
  stockCount : Nat
  enabledCount : Nat
deriving DecidableEq

/-- The runtime value handed to `handleStockData`: either an actual array
of stock items, or anything else (`Array.isArray` fails: null, object,
string, ...). -/
inductive Payload where
  | arr : List StockData → Payload
  | nonArray : Payload

/-- Observable effects of a `StateManager` operation, in program order:
state-listener notifications (`setState` → `notifyStateListeners`),
data-listener notifications (`notifyUpdateListeners`), user-visible
info/warning/error messages, and `console` log lines. -/
inductive SMEvent where
  | stateChange : MonitoringState → SMEvent
  | dataNotified : SMEvent
  | infoShown : SMEvent
  | warnShown : SMEvent
  | errorShown : SMEvent
  | logWarn : SMEvent
  | logError : SMEvent
deriving DecidableEq

/-- The fields of `StateManager` the claims are about: the current state,
whether the poll timer is armed (`this.timer !== null`), the stock map
(insertion-ordered, as a JS `Map`), and the cached summary. -/
structure SMState where
  state : MonitoringState
  timerArmed : Bool
  stockData : List (String × StockData)
  summaryData : Option SummaryData
deriving DecidableEq

namespace StateManager

/-- JS `Map.set`: replace in place if the key exists (keeping insertion
order), otherwise append. -/
def mapSet (m : List (String × StockData)) (k : String) (v : StockData) :
    List (String × StockData) :=
  if m.any (fun p => p.1 == k) then
    m.map (fun p => if p.1 == k then (k, v) else p)
  else
    m ++ [(k, v)]

/-- `getStockData()` (stateManager.ts lines 126-128):
`Array.from(this.stockData.values())` in insertion order. -/
def getStockData (s : SMState) : List StockData :=
  s.stockData.map (fun p => p.2)

/-- `calculateSummary()` (stateManager.ts lines 267-291): filter the
enabled stocks, sum profit / market value / cost basis over them, and set
`totalProfitPercent = totalProfit / totalCostBasis * 100` when
`totalCostBasis > 0`, else `0`. -/
def calculateSummary (stocks : List StockData) : SummaryData :=
  let enabledStocks := stocks.filter (fun s => s.enabled)
  let totalProfit := (enabledStocks.map (fun s => s.profitAmount)).sum
  let totalMarketValue := (enabledStocks.map (fun s => s.marketValue)).sum
  let totalCostBasis := (enabledStocks.map (fun s => s.costBasis)).sum
  { totalProfit := totalProfit
    totalProfitPercent :=
      if 0 < totalCostBasis then totalProfit / totalCostBasis * 100 else 0
    totalMarketValue := totalMarketValue
    totalCostBasis := totalCostBasis
    stockCount := stocks.length
    enabledCount := enabledStocks.length }

/-- `handleStockData(data)` (stateManager.ts lines 235-250): if the input
is not an array, return immediately; otherwise `set` each item by its
`code`, recompute the summary from the map's values, and notify the
update listeners.  The boolean records whether listeners were notified. -/
def handleStockData (s : SMState) (d : Payload) : SMState × Bool :=
  match d with
  | Payload.nonArray => (s, false)
  | Payload.arr ds =>
      let m := ds.foldl (fun acc st => mapSet acc st.code st) s.stockData
      let s1 : SMState := { s with stockData := m }
      ({ s1 with summaryData := some (calculateSummary (getStockData s1)) }, true)

/-- `start()` (stateManager.ts lines 38-66).  A no-op unless the state is
`STOPPED`.  Otherwise: `STARTING`; `daemonOk` says whether
`startDaemon()` returned true, `configOk` whether `sendConfig` resolved;
on both, the timer is armed and the state becomes `RUNNING`; on either
failure the catch sets `ERROR` (the timer is only armed after a
successful config push, since `startUpdateTimer` runs after `sendConfig`).
The immediate first poll fired inside `startUpdateTimer` is an un-awaited
async call, modelled as a separate `performUpdate` step. -/
def start (s : SMState) (daemonOk configOk : Bool) : SMState × List SMEvent :=
  if s.state ≠ MonitoringState.stopped then (s, [])
  else if daemonOk && configOk then
    ({ s with state := MonitoringState.running, timerArmed := true },
     [SMEvent.stateChange MonitoringState.starting,
      SMEvent.stateChange MonitoringState.running, SMEvent.infoShown])
  else
    ({ s with state := MonitoringState.error },
     [SMEvent.stateChange MonitoringState.starting,
      SMEvent.stateChange MonitoringState.error, SMEvent.errorShown])

/-- `stop()` (stateManager.ts lines 71-96).  A no-op unless the state is
`RUNNING`.  Otherwise: `STOPPING`; the timer is cleared
(`stopUpdateTimer`, lines 208-213); the `pause` command is sent
best-effort (`pauseOk` = whether it resolved; a rejection is caught and
logged with `console.warn`); then unconditionally `STOPPED` plus an info
message. -/
def stop (s : SMState) (pauseOk : Bool) : SMState × List SMEvent :=
  if s.state ≠ MonitoringState.running then (s, [])
  else
    ({ s with state := MonitoringState.stopped, timerArmed := false },
     [SMEvent.stateChange MonitoringState.stopping]
       ++ (if pauseOk then [] else [SMEvent.logWarn])
       ++ [SMEvent.stateChange MonitoringState.stopped, SMEvent.infoShown])

/-- `refresh()` (stateManager.ts lines 101-114).  Outside `RUNNING` it
shows a warning and returns without issuing any command.  In `RUNNING` it
awaits `requestUpdate()`: `res = some d` models a resolved response whose
`data` is `d` (possibly not an array), `res = none` a rejection (e.g. the
10 s command timeout); on success it merges via `handleStockData` and
shows an info message; the catch only shows an error message — it does
not call `setState`. -/
def refresh (s : SMState) (res : Option Payload) : SMState × List SMEvent :=
  if s.state ≠ MonitoringState.running then (s, [SMEvent.warnShown])
  else
    match res with
    | some d =>
        let p := handleStockData s d
        (p.1, (if p.2 then [SMEvent.dataNotified] else []) ++ [SMEvent.infoShown])
    | none => (s, [SMEvent.errorShown])

/-- `performUpdate()` (stateManager.ts lines 218-230), the timer-tick
path: on success it merges via `handleStockData`; on failure it logs the
error and, if the state is still `RUNNING`, transitions to `ERROR` and
shows an error message. -/
def performUpdate (s : SMState) (res : Option Payload) : SMState × List SMEvent :=
  match res with
  | some d =>
      let p := handleStockData s d
      (p.1, if p.2 then [SMEvent.dataNotified] else [])
  | none =>
      if s.state = MonitoringState.running then
        ({ s with state := MonitoringState.error },
         [SMEvent.logError, SMEvent.stateChange MonitoringState.error,
          SMEvent.errorShown])
      else (s, [SMEvent.logError])

end StateManager

/-- Sample stock item used to instantiate witnesses on concrete inputs
(values as in the spec's Scenario D). -/
def sampleStock (code : String) (profit cost : ℚ) (enabled : Bool) : StockData :=
  { code := code, name := code, currentPrice := 0, buyPrice := 0, quantity := 0
    profitAmount := profit, profitPercent := 0, marketValue := 0
    costBasis := cost, change := 0, changePercent := 0, lastUpdate := 0
    enabled := enabled }

/- ======================================================================
   Part 3: Request correlation (src/pythonClient.ts, sendCommand /
   handleResponse and the per-command timeout)
   ====================================================================== -/

namespace PythonClient

/-- The two ways the originating caller's promise can settle. -/
inductive CompletionKind where
  | responseDelivered : CompletionKind
  | timedOut : CompletionKind
deriving DecidableEq

/-- The lifecycle of one Command sent through `sendCommand` (pythonClient.ts
lines 76-89): whether its id is still in `pendingRequests`
(`entryPresent`), whether the `setTimeout` timer is still armed (set and
neither fired nor cleared), how the caller's promise has settled, and the
timer's deadline. -/
structure RequestState where
  entryPresent : Bool
  timerArmed : Bool
  completed : Option CompletionKind
  deadline : Nat
deriving DecidableEq

/-- The per-command timeout, 10000 ms (pythonClient.ts line 80). -/
def commandTimeoutMs : Nat := 10000

/-- `sendCommand` at time `now`: registers the callback in
`pendingRequests` and arms a timer due at `now + 10000`. -/
def sendCommand (now : Nat) : RequestState :=
  { entryPresent := true, timerArmed := true, completed := none
    deadline := now + commandTimeoutMs }

/-- `handleResponse` for a Response carrying this command's id
(pythonClient.ts lines 227-239): if the id is registered, the entry is
deleted and the callback runs — it clears the timeout and resolves the
caller; if not, the callback lookup fails and the caller is untouched
(the response falls through to the push / error branches). -/
def handleResponse (r : RequestState) : RequestState :=
  if r.entryPresent then
    { r with entryPresent := false, timerArmed := false
             completed := some CompletionKind.responseDelivered }
  else r

/-- The `setTimeout` closure (pythonClient.ts lines 77-80): it can only run
while the timer is armed (a cleared timer never fires, and a timer fires
at most once); when it runs it deletes the pending entry and rejects the
caller with the timeout error. -/
def fireTimeout (r : RequestState) : RequestState :=
  if r.timerArmed then
    { r with entryPresent := false, timerArmed := false
             completed := some CompletionKind.timedOut }
  else r

/-- Event-loop events affecting one outstanding command: a Response with
its id arrives, or its timeout timer fires. -/
inductive ReqEvent where
  | matchingResponse : ReqEvent
  | timeoutFires : ReqEvent
deriving DecidableEq

/-- One event-loop step for the command's lifecycle. -/
def reqStep (r : RequestState) : ReqEvent → RequestState
  | ReqEvent.matchingResponse => handleResponse r
  | ReqEvent.timeoutFires => fireTimeout r

/-- Run a serialized trace of events (the controller is single-threaded:
exactly one handler runs at a time). -/
def reqRun (r : RequestState) : List ReqEvent → RequestState
  | [] => r
  | e :: es => reqRun (reqStep r e) es

end PythonClient

/- ======================================================================
   Part 4: Line codec (src/pythonClient.ts, messageBuffer /
   processMessages, fed from the stdout data handler)
   ====================================================================== -/

namespace PythonClient

/-- JS `String.prototype.split('\n')` over character lists: the list of
segments between newline separators (always non-empty; a trailing
newline yields a trailing empty segment). -/
def splitNl : List Char → List (List Char)
  | [] => [[]]
  | c :: cs =>
      if c = '\n' then [] :: splitNl cs
      else
        match splitNl cs with
        | [] => [[c]]
        | h :: t => (c :: h) :: t

/-- Complete records and trailing fragment of a byte sequence in one go:
`scanLines xs = ((splitNl xs).dropLast, (splitNl xs).getLastD [])`
(proved below), i.e. exactly `split('\n')` followed by `lines.pop()`. -/
def scanLines : List Char → List (List Char) × List Char
  | [] => ([], [])
  | c :: cs =>
      let p := scanLines cs
      if c = '\n' then ([] :: p.1, p.2)
      else
        match p.1 with
        | [] => ([], c :: p.2)
        | r0 :: rs => ((c :: r0) :: rs, p.2)

/-- One `data` chunk arriving (pythonClient.ts lines 146-149 and 204-208):
the chunk is appended to `messageBuffer`, the whole buffer is split on
newlines, the last (possibly incomplete) segment is popped back into the
buffer, and the complete records are processed. Returns (complete
records, new buffer). -/
def feed (buf chunk : List Char) : List (List Char) × List Char :=
  ((splitNl (buf ++ chunk)).dropLast, (splitNl (buf ++ chunk)).getLastD [])

/-- Feed a sequence of chunks starting from the given buffer, collecting
all complete records in order. -/
def feedAll (buf : List Char) : List (List Char) → List (List Char) × List Char
  | [] => ([], buf)
  | c :: cs =>
      let p := feed buf c
      let q := feedAll p.2 cs
      (p.1 ++ q.1, q.2)

/-- Whitespace for the `line.trim()` blank-line check. -/
def isWs (c : Char) : Bool :=
  c = ' ' || c = '\t' || c = '\n' || c = '\r'

/-- The record loop of `processMessages` (pythonClient.ts lines 210-221):
blank records (`!line.trim()`) are skipped, each remaining record is
parsed, a parse failure is logged and the record dropped (the loop
continues), and each parse success is handed to `handleResponse`.  The
parser is abstract: any partial parsing function. -/
def delivered {α : Type} (parse : List Char → Option α)
    (records : List (List Char)) : List α :=
  (records.filter (fun r => !(r.all isWs))).filterMap parse

end PythonClient

/- ======================================================================
   Theorems
   ====================================================================== -/

open PythonClient

/-- Claim C1, counterexample.  The claim, as stated, requires that after 5
consecutive unexpected exits with no intervening successful *external*
`start()` call, the next unexpected exit produces only a terminal failure
report.  Concretely false: in a crash loop where each automatic restart's
internal `startDaemon()` succeeds (the usual case: the spawn succeeds and
the worker crashes again later), that internal success resets
`restartCount` to 0 each time, so after 6 consecutive unexpected exits
with no external `start()` at all, every exit — including the 6th — still
gets a restart attempt and no terminal failure is ever reported. -/
theorem restart_bound_counterexample :
    (runClient ⟨0, false, false⟩
        (List.replicate 6 (ClientEvent.unexpectedExit true))).2
      = List.replicate 6 (ExitOutcome.restartAttempted true)
    ∧ ExitOutcome.terminalFailure ∉
        (runClient ⟨0, false, false⟩
          (List.replicate 6 (ClientEvent.unexpectedExit true))).2 := by
  constructor
  · rfl
  · decide

/-- Claim C1, amended.  After 5 consecutive unexpected exits in which no
`startDaemon()` call of any kind succeeds (neither an external `start()`
nor the automatic restart's own internal call), the counter reaches 5,
every one of those exits attempted a restart, and the next unexpected
exit produces only a terminal failure report with no state change; a
successful `startDaemon()` always resets the counter to zero, and a
positive counter can only return to zero through a successful
`startDaemon()` (external, or the internal one of a restart attempt). -/
theorem restart_bound_amended (s : ClientState) (h : s.restartCount = 0) :
    (runClient s (List.replicate 5 (ClientEvent.unexpectedExit false))).1.restartCount = 5
    ∧ (runClient s (List.replicate 5 (ClientEvent.unexpectedExit false))).2
        = List.replicate 5 (ExitOutcome.restartAttempted false)
    ∧ (∀ b : Bool,
        clientStep (runClient s (List.replicate 5 (ClientEvent.unexpectedExit false))).1
            (ClientEvent.unexpectedExit b)
          = ((runClient s (List.replicate 5 (ClientEvent.unexpectedExit false))).1,
             some ExitOutcome.terminalFailure))
    ∧ (∀ t : ClientState, (startDaemon true t).1.restartCount = 0)
    ∧ (∀ (t : ClientState) (e : ClientEvent), t.restartCount ≠ 0 →
        (clientStep t e).1.restartCount = 0 →
        e = ClientEvent.extStart true ∨ e = ClientEvent.unexpectedExit true) := by
  obtain ⟨cnt, conn, proc⟩ := s
  simp only [ClientState.mk.injEq] at h
  subst h
  refine ⟨?_, ?_, ?_, ?_, ?_⟩
  · rfl
  · rfl
  · intro b
    rfl
  · intro t
    rfl
  · intro t e hne hzero
    obtain ⟨tc, tconn, tproc⟩ := t
    cases e with
    | extStart ok =>
        cases ok
        · exact absurd hzero (by simpa [clientStep, startDaemon] using hne)
        · exact Or.inl rfl
    | unexpectedExit ok =>
        cases ok
        · exfalso
          simp only [clientStep, handleProcessExit, startDaemon, maxRestarts] at hzero
          by_cases hge : tc ≥ 5
          · rw [if_pos hge] at hzero
            exact hne hzero
          · rw [if_neg hge] at hzero
            simp at hzero
        · exact Or.inr rfl

/-- Witness for the amended C1 theorem at the concrete initial client
state (counter 0): the five failed-restart exits drive the counter to 5
and the sixth unexpected exit yields only a terminal failure. -/
theorem restart_bound_amended_witness :
    (runClient ⟨0, false, false⟩
        (List.replicate 5 (ClientEvent.unexpectedExit false))).1.restartCount = 5
    ∧ clientStep (runClient ⟨0, false, false⟩
          (List.replicate 5 (ClientEvent.unexpectedExit false))).1
        (ClientEvent.unexpectedExit false)
      = ((runClient ⟨0, false, false⟩
            (List.replicate 5 (ClientEvent.unexpectedExit false))).1,
         some ExitOutcome.terminalFailure) :=
  ⟨(restart_bound_amended ⟨0, false, false⟩ rfl).1,
   (restart_bound_amended ⟨0, false, false⟩ rfl).2.2.1 false⟩

open StateManager

/-- Claim C2, counterexample.  `start()` in state `Error` does *not*
transition to `Starting`: the guard at stateManager.ts line 39 returns
immediately whenever the state is not `STOPPED`, so from `Error` the call
is a no-op (state stays `error`, no notification), even with a worker
that would start successfully. -/
theorem start_from_error_counterexample :
    StateManager.start ⟨MonitoringState.error, false, [], none⟩ true true
      = (⟨MonitoringState.error, false, [], none⟩, [])
    ∧ (StateManager.start ⟨MonitoringState.error, false, [], none⟩ true true).1.state
        ≠ MonitoringState.starting := by
  constructor
  · rfl
  · decide

/-- Claim C2, amended.  `start()` is a no-op in every state other than
`Stopped` — including `Error`, so there is no `Error → Starting` recovery
path; from `Stopped` its first notified state is `Starting`; `stop()` is
a no-op in every state other than `Running`. -/
theorem start_stop_guard_amended (s : SMState) (daemonOk configOk pauseOk : Bool) :
    (s.state ≠ MonitoringState.stopped →
      StateManager.start s daemonOk configOk = (s, []))
    ∧ (s.state ≠ MonitoringState.running →
      StateManager.stop s pauseOk = (s, []))
    ∧ (s.state = MonitoringState.stopped →
      (StateManager.start s daemonOk configOk).2.head?
        = some (SMEvent.stateChange MonitoringState.starting)) := by
  refine ⟨?_, ?_, ?_⟩
  · intro h
    simp [StateManager.start, h]
  · intro h
    simp [StateManager.stop, h]
  · intro h
    rw [StateManager.start, if_neg (by simp [h])]
    by_cases hd : (daemonOk && configOk) = true
    · rw [if_pos hd]
      rfl
    · rw [if_neg hd]
      rfl

/-- Witness for the amended C2 theorem: `start()` from `Error` and
`stop()` from `Stopped` are no-ops, and `start()` from `Stopped` notifies
`Starting` first. -/
theorem start_stop_guard_amended_witness :
    StateManager.start ⟨MonitoringState.error, false, [], none⟩ true true
      = (⟨MonitoringState.error, false, [], none⟩, [])
    ∧ StateManager.stop ⟨MonitoringState.stopped, false, [], none⟩ true
      = (⟨MonitoringState.stopped, false, [], none⟩, [])
    ∧ (StateManager.start ⟨MonitoringState.stopped, false, [], none⟩ true true).2.head?
      = some (SMEvent.stateChange MonitoringState.starting) :=
  ⟨(start_stop_guard_amended ⟨MonitoringState.error, false, [], none⟩ true true true).1
      (by decide),
   (start_stop_guard_amended ⟨MonitoringState.stopped, false, [], none⟩ true true true).2.1
      (by decide),
   (start_stop_guard_amended ⟨MonitoringState.stopped, false, [], none⟩ true true true).2.2
      rfl⟩

/-- Claim C8: every `stop()` from `Running` ends with state `Stopped` and
the timer disarmed, for both outcomes of the best-effort `pause` command;
the notification sequence within the call is `Stopping` immediately
followed by `Stopped` (a failed pause only adds a `console.warn` in
between), so `Stopping` never persists past the call. -/
theorem stop_reaches_stopped (s : SMState) (pauseOk : Bool)
    (h : s.state = MonitoringState.running) :
    (StateManager.stop s pauseOk).1.state = MonitoringState.stopped
    ∧ (StateManager.stop s pauseOk).1.timerArmed = false
    ∧ (StateManager.stop s pauseOk).2
        = [SMEvent.stateChange MonitoringState.stopping]
            ++ (if pauseOk then [] else [SMEvent.logWarn])
            ++ [SMEvent.stateChange MonitoringState.stopped, SMEvent.infoShown] := by
  rw [StateManager.stop, if_neg (by simp [h])]
  exact ⟨rfl, rfl, rfl⟩

/-- Witness for C8 at a concrete running state with a failing `pause`
command: the call still ends `Stopped` with the timer disarmed. -/
theorem stop_reaches_stopped_witness :
    (StateManager.stop ⟨MonitoringState.running, true, [], none⟩ false).1.state
        = MonitoringState.stopped
    ∧ (StateManager.stop ⟨MonitoringState.running, true, [], none⟩ false).1.timerArmed
        = false :=
  ⟨(stop_reaches_stopped ⟨MonitoringState.running, true, [], none⟩ false rfl).1,
   (stop_reaches_stopped ⟨MonitoringState.running, true, [], none⟩ false rfl).2.1⟩

/-- Claim C9: `handleStockData` on any non-array input returns without
touching anything — the stock map and the summary are exactly as before
and no data-update listener is notified (`Array.isArray` guard at
stateManager.ts line 236). -/
theorem handleStockData_nonarray_frame (s : SMState) :
    handleStockData s Payload.nonArray = (s, false)
    ∧ (handleStockData s Payload.nonArray).1.stockData = s.stockData
    ∧ (handleStockData s Payload.nonArray).1.summaryData = s.summaryData :=
  ⟨rfl, rfl, rfl⟩

/-- Claim C5: after every merge (`handleStockData` on an array), the
stored summary is `calculateSummary` of the merged map's values; and for
any stock list, `calculateSummary` returns exactly the sums of
`profitAmount`, `marketValue` and `costBasis` over the enabled stocks,
with `totalProfitPercent = 100 * totalProfit / totalCostBasis` when
`totalCostBasis > 0` and `0` otherwise. -/
theorem summary_correctness (s : SMState) (ds : List StockData) :
    (handleStockData s (Payload.arr ds)).1.summaryData
      = some (calculateSummary (getStockData (handleStockData s (Payload.arr ds)).1))
    ∧ ∀ stocks : List StockData,
        (calculateSummary stocks).totalProfit
            = ((stocks.filter (fun t => t.enabled)).map (fun t => t.profitAmount)).sum
        ∧ (calculateSummary stocks).totalMarketValue
            = ((stocks.filter (fun t => t.enabled)).map (fun t => t.marketValue)).sum
        ∧ (calculateSummary stocks).totalCostBasis
            = ((stocks.filter (fun t => t.enabled)).map (fun t => t.costBasis)).sum
        ∧ (calculateSummary stocks).totalProfitPercent
            = (if 0 < ((stocks.filter (fun t => t.enabled)).map (fun t => t.costBasis)).sum
               then 100 * ((stocks.filter (fun t => t.enabled)).map (fun t => t.profitAmount)).sum
                      / ((stocks.filter (fun t => t.enabled)).map (fun t => t.costBasis)).sum
               else 0) := by
  refine ⟨rfl, ?_⟩
  intro stocks
  refine ⟨rfl, rfl, rfl, ?_⟩
  show (if 0 < ((stocks.filter (fun t => t.enabled)).map (fun t => t.costBasis)).sum
        then ((stocks.filter (fun t => t.enabled)).map (fun t => t.profitAmount)).sum
               / ((stocks.filter (fun t => t.enabled)).map (fun t => t.costBasis)).sum * 100
        else 0) = _
  by_cases hc :
      0 < ((stocks.filter (fun t => t.enabled)).map (fun t => t.costBasis)).sum
  · rw [if_pos hc, if_pos hc, div_mul_eq_mul_div, mul_comm]
  · rw [if_neg hc, if_neg hc]

/-- Claim C4, counterexample.  With the machine `Running` and the `update`
command failing (e.g. the 10 s timeout), `refresh()` does *not*
transition to `Error`: the catch at stateManager.ts lines 111-113 only
shows an error message and never calls `setState`, so the state stays
`Running` and no state-change notification is emitted. -/
theorem refresh_failure_counterexample :
    StateManager.refresh ⟨MonitoringState.running, true, [], none⟩ none
      = (⟨MonitoringState.running, true, [], none⟩, [SMEvent.errorShown])
    ∧ (StateManager.refresh ⟨MonitoringState.running, true, [], none⟩ none).1.state
        ≠ MonitoringState.error := by
  constructor
  · rfl
  · decide

/-- Claim C4, amended.  In `Running`, a failed `update` command makes
`refresh()` report the failure with an error message while leaving the
whole state unchanged (still `Running`); the transition to `Error` on a
failed update belongs to the timer path `performUpdate`, which logs,
moves to `Error` and reports.  Outside `Running`, `refresh()` issues no
command and changes nothing (it only shows a warning). -/
theorem refresh_failure_amended (s : SMState) (res : Option Payload) :
    (s.state = MonitoringState.running →
      StateManager.refresh s none = (s, [SMEvent.errorShown]))
    ∧ (s.state ≠ MonitoringState.running →
      StateManager.refresh s res = (s, [SMEvent.warnShown]))
    ∧ (s.state = MonitoringState.running →
      StateManager.performUpdate s none
        = ({ s with state := MonitoringState.error },
           [SMEvent.logError, SMEvent.stateChange MonitoringState.error,
            SMEvent.errorShown])) := by
  refine ⟨?_, ?_, ?_⟩
  · intro h
    simp [StateManager.refresh, h]
  · intro h
    cases res <;> simp [StateManager.refresh, h]
  · intro h
    simp [StateManager.performUpdate, h]

/-- Witness for the amended C4 theorem: a `Running` machine whose update
fails keeps state `Running` under `refresh()` but moves to `Error` under
the timer path, and a `Stopped` machine's `refresh()` changes nothing. -/
theorem refresh_failure_amended_witness :
    StateManager.refresh ⟨MonitoringState.running, true, [], none⟩ none
      = (⟨MonitoringState.running, true, [], none⟩, [SMEvent.errorShown])
    ∧ StateManager.refresh ⟨MonitoringState.stopped, false, [], none⟩ none
      = (⟨MonitoringState.stopped, false, [], none⟩, [SMEvent.warnShown])
    ∧ StateManager.performUpdate ⟨MonitoringState.running, true, [], none⟩ none
      = (⟨MonitoringState.error, true, [], none⟩,
         [SMEvent.logError, SMEvent.stateChange MonitoringState.error,
          SMEvent.errorShown]) :=
  ⟨(refresh_failure_amended ⟨MonitoringState.running, true, [], none⟩ none).1 rfl,
   (refresh_failure_amended ⟨MonitoringState.stopped, false, [], none⟩ none).2.1
      (by decide),
   (refresh_failure_amended ⟨MonitoringState.running, true, [], none⟩ none).2.2 rfl⟩

/-- `Map.set` with a different key keeps an existing entry untouched. -/
theorem mapSet_mem_of_ne {m : List (String × StockData)} {k : String}
    {v : StockData} (k' : String) (v' : StockData)
    (h : (k, v) ∈ m) (hne : k ≠ k') : (k, v) ∈ StateManager.mapSet m k' v' := by
  rw [StateManager.mapSet]
  split
  · exact List.mem_map.2 ⟨(k, v), h, by simp [hne]⟩
  · exact List.mem_append_left _ h

/-- Folding `Map.set` over a batch whose codes all differ from `k` keeps
the entry `(k, v)` untouched. -/
theorem foldl_mapSet_mem (ds : List StockData) :
    ∀ (m : List (String × StockData)) (k : String) (v : StockData),
      (k, v) ∈ m → (∀ d ∈ ds, d.code ≠ k) →
      (k, v) ∈ ds.foldl (fun acc st => StateManager.mapSet acc st.code st) m := by
  induction ds with
  | nil => intro m k v h _; exact h
  | cons d ds ih =>
      intro m k v h hcodes
      simp only [List.foldl_cons]
      exact ih _ k v
        (mapSet_mem_of_ne d.code d h (fun he => hcodes d (List.mem_cons_self d ds) he.symm))
        (fun e he => hcodes e (List.mem_cons_of_mem d he))

/-- `Map.set` never deletes a key. -/
theorem mapSet_keys {m : List (String × StockData)} (k' : String) (v' : StockData) :
    ∀ p ∈ m, p.1 ∈ (StateManager.mapSet m k' v').map (fun q => q.1) := by
  intro p hp
  rw [StateManager.mapSet]
  split
  · refine List.mem_map.2 ⟨if p.1 == k' then (k', v') else p, List.mem_map.2 ⟨p, hp, rfl⟩, ?_⟩
    by_cases h : p.1 = k' <;> simp [h]
  · exact List.mem_map.2 ⟨p, List.mem_append_left _ hp, rfl⟩

/-- Folding `Map.set` over a batch never deletes a key. -/
theorem foldl_mapSet_keys (ds : List StockData) :
    ∀ (m : List (String × StockData)) (x : String),
      x ∈ m.map (fun q => q.1) →
      x ∈ (ds.foldl (fun acc st => StateManager.mapSet acc st.code st) m).map
            (fun q => q.1) := by
  induction ds with
  | nil => intro m x h; exact h
  | cons d ds ih =>
      intro m x h
      simp only [List.foldl_cons]
      apply ih
      obtain ⟨p, hp, hpx⟩ := List.mem_map.1 h
      exact hpx ▸ mapSet_keys d.code d p hp

/-- Claim C10: a merge replaces snapshots per key only.  Every snapshot
already in the map whose key does not occur among the incoming codes is
unchanged by `handleStockData` on that batch, still appears in
`getStockData()`, and still feeds the recomputed summary (which is
`calculateSummary` over exactly the merged map's values); moreover no key
whatsoever is deleted by a merge. -/
theorem merge_preserves_unlisted (s : SMState) (ds : List StockData)
    (k : String) (v : StockData)
    (hmem : (k, v) ∈ s.stockData) (hnot : k ∉ ds.map (fun d => d.code)) :
    (k, v) ∈ (StateManager.handleStockData s (Payload.arr ds)).1.stockData
    ∧ v ∈ StateManager.getStockData (StateManager.handleStockData s (Payload.arr ds)).1
    ∧ (StateManager.handleStockData s (Payload.arr ds)).1.summaryData
        = some (StateManager.calculateSummary
            (StateManager.getStockData (StateManager.handleStockData s (Payload.arr ds)).1))
    ∧ ∀ p ∈ s.stockData,
        p.1 ∈ (StateManager.handleStockData s (Payload.arr ds)).1.stockData.map
                (fun q => q.1) := by
  have hcodes : ∀ d ∈ ds, d.code ≠ k := by
    intro d hd he
    exact hnot (List.mem_map.2 ⟨d, hd, he⟩)
  have hk : (k, v) ∈ (StateManager.handleStockData s (Payload.arr ds)).1.stockData :=
    foldl_mapSet_mem ds s.stockData k v hmem hcodes
  refine ⟨hk, ?_, rfl, ?_⟩
  · exact List.mem_map.2 ⟨(k, v), hk, rfl⟩
  · intro p hp
    exact foldl_mapSet_keys ds s.stockData p.1 (List.mem_map.2 ⟨p, hp, rfl⟩)

/-- Witness for C10: merging a batch containing only stock B keeps the
previously known stock A in the map and in `getStockData()`. -/
theorem merge_preserves_unlisted_witness :
    ("A", sampleStock "A" 25 1000 true)
      ∈ (StateManager.handleStockData
          ⟨MonitoringState.running, true, [("A", sampleStock "A" 25 1000 true)], none⟩
          (Payload.arr [sampleStock "B" (-50) 2000 true])).1.stockData
    ∧ sampleStock "A" 25 1000 true
      ∈ StateManager.getStockData (StateManager.handleStockData
          ⟨MonitoringState.running, true, [("A", sampleStock "A" 25 1000 true)], none⟩
          (Payload.arr [sampleStock "B" (-50) 2000 true])).1 :=
  ⟨(merge_preserves_unlisted
      ⟨MonitoringState.running, true, [("A", sampleStock "A" 25 1000 true)], none⟩
      [sampleStock "B" (-50) 2000 true] "A" (sampleStock "A" 25 1000 true)
      (by simp) (by simp [sampleStock])).1,
   (merge_preserves_unlisted
      ⟨MonitoringState.running, true, [("A", sampleStock "A" 25 1000 true)], none⟩
      [sampleStock "B" (-50) 2000 true] "A" (sampleStock "A" 25 1000 true)
      (by simp) (by simp [sampleStock])).2.1⟩

/-- Invariant of one command's lifecycle: either still pending (entry
registered, timer armed, promise unsettled) or settled (entry removed,
timer dead, promise completed).  One event-loop step preserves it. -/
theorem reqStep_inv (r : RequestState) (e : ReqEvent)
    (h : (r.completed = none ∧ r.entryPresent = true ∧ r.timerArmed = true)
       ∨ (r.completed ≠ none ∧ r.entryPresent = false ∧ r.timerArmed = false)) :
    ((reqStep r e).completed = none ∧ (reqStep r e).entryPresent = true
        ∧ (reqStep r e).timerArmed = true)
    ∨ ((reqStep r e).completed ≠ none ∧ (reqStep r e).entryPresent = false
        ∧ (reqStep r e).timerArmed = false) := by
  rcases h with ⟨hc, he, ha⟩ | ⟨hc, he, ha⟩ <;> cases e <;>
    simp [reqStep, PythonClient.handleResponse, PythonClient.fireTimeout,
          he, ha, hc]

/-- The lifecycle invariant holds after any serialized event trace. -/
theorem reqRun_inv (evs : List ReqEvent) :
    ∀ r : RequestState,
      ((r.completed = none ∧ r.entryPresent = true ∧ r.timerArmed = true)
        ∨ (r.completed ≠ none ∧ r.entryPresent = false ∧ r.timerArmed = false)) →
      (((reqRun r evs).completed = none ∧ (reqRun r evs).entryPresent = true
          ∧ (reqRun r evs).timerArmed = true)
        ∨ ((reqRun r evs).completed ≠ none ∧ (reqRun r evs).entryPresent = false
          ∧ (reqRun r evs).timerArmed = false)) := by
  induction evs with
  | nil => intro r h; exact h
  | cons e es ih => intro r h; exact ih _ (reqStep_inv r e h)

/-- Once the entry is removed and the timer is dead, no further event
changes anything: a late Response finds no registered callback and a
fired-or-cleared timer cannot fire again. -/
theorem reqRun_frozen (evs : List ReqEvent) :
    ∀ r : RequestState, r.entryPresent = false → r.timerArmed = false →
      reqRun r evs = r := by
  induction evs with
  | nil => intro r _ _; rfl
  | cons e es ih =>
      intro r he ha
      have hs : reqStep r e = r := by
        cases e <;>
          simp [reqStep, PythonClient.handleResponse, PythonClient.fireTimeout, he, ha]
      show reqRun (reqStep r e) es = r
      rw [hs]
      exact ih r he ha

/-- No event changes the timer's deadline. -/
theorem reqRun_deadline (evs : List ReqEvent) :
    ∀ r : RequestState, (reqRun r evs).deadline = r.deadline := by
  induction evs with
  | nil => intro r; rfl
  | cons e es ih =>
      intro r
      show (reqRun (reqStep r e) es).deadline = r.deadline
      rw [ih]
      cases e <;>
        simp [reqStep, PythonClient.handleResponse, PythonClient.fireTimeout] <;>
        split <;> rfl

/-- Claim C3: for every Command sent via `sendCommand`, over every
serialized event-loop trace the originating caller is completed at most
once — the pending entry is present exactly while the promise is
unsettled and is removed at the completing event; any first event (the
matching Response, or the timer due 10 seconds after sending) settles it,
so a run in which either occurs completes the caller exactly once; and
once settled, every later event — in particular a Response with the same
id arriving after the timeout — finds no entry and changes nothing. -/
theorem command_completion_exactly_once (now : Nat) (evs : List ReqEvent) :
    ((reqRun (PythonClient.sendCommand now) evs).entryPresent = true
      ↔ (reqRun (PythonClient.sendCommand now) evs).completed = none)
    ∧ (evs ≠ [] → (reqRun (PythonClient.sendCommand now) evs).completed ≠ none)
    ∧ ((reqRun (PythonClient.sendCommand now) evs).completed ≠ none →
        ∀ evs2 : List ReqEvent,
          reqRun (reqRun (PythonClient.sendCommand now) evs) evs2
            = reqRun (PythonClient.sendCommand now) evs)
    ∧ (reqRun (PythonClient.sendCommand now) evs).deadline = now + 10000 := by
  have hinv := reqRun_inv evs (PythonClient.sendCommand now)
    (Or.inl ⟨rfl, rfl, rfl⟩)
  refine ⟨?_, ?_, ?_, ?_⟩
  · rcases hinv with ⟨hc, he, _⟩ | ⟨hc, he, _⟩
    · simp [he, hc]
    · simpa [he] using hc
  · intro hne
    cases evs with
    | nil => exact absurd rfl hne
    | cons e es =>
        have h1 : (reqStep (PythonClient.sendCommand now) e).completed ≠ none
            ∧ (reqStep (PythonClient.sendCommand now) e).entryPresent = false
            ∧ (reqStep (PythonClient.sendCommand now) e).timerArmed = false := by
          cases e <;>
            simp [reqStep, PythonClient.handleResponse, PythonClient.fireTimeout,
                  PythonClient.sendCommand]
        show (reqRun (reqStep (PythonClient.sendCommand now) e) es).completed ≠ none
        rw [reqRun_frozen es _ h1.2.1 h1.2.2]
        exact h1.1
  · intro hc evs2
    rcases hinv with ⟨hcn, _, _⟩ | ⟨_, he, ha⟩
    · exact absurd hcn hc
    · exact reqRun_frozen evs2 _ he ha
  · rw [reqRun_deadline]
    rfl

/-- Witness for C3 at a concrete trace: a command sent at time 0 whose
Response arrives is completed (settled), a late duplicate Response and a
stray timer event change nothing, and the timer deadline is 0 + 10000. -/
theorem command_completion_exactly_once_witness :
    (reqRun (PythonClient.sendCommand 0) [ReqEvent.matchingResponse]).completed ≠ none
    ∧ reqRun (reqRun (PythonClient.sendCommand 0) [ReqEvent.matchingResponse])
        [ReqEvent.timeoutFires, ReqEvent.matchingResponse]
      = reqRun (PythonClient.sendCommand 0) [ReqEvent.matchingResponse]
    ∧ (reqRun (PythonClient.sendCommand 0) [ReqEvent.matchingResponse]).deadline
      = 0 + 10000 :=
  ⟨(command_completion_exactly_once 0 [ReqEvent.matchingResponse]).2.1 (by decide),
   (command_completion_exactly_once 0 [ReqEvent.matchingResponse]).2.2.1 (by decide)
     [ReqEvent.timeoutFires, ReqEvent.matchingResponse],
   (command_completion_exactly_once 0 [ReqEvent.matchingResponse]).2.2.2⟩

/-- `split('\n')` always yields at least one segment. -/
theorem splitNl_ne_nil : ∀ xs : List Char, splitNl xs ≠ [] := by
  intro xs
  induction xs with
  | nil => simp [PythonClient.splitNl]
  | cons c cs ih =>
      by_cases h : c = '\n'
      · simp [PythonClient.splitNl, h]
      · rcases hS : PythonClient.splitNl cs with _ | ⟨h1, t⟩
        · exact absurd hS ih
        · simp [PythonClient.splitNl, h, hS]

/-- `scanLines` computes exactly `split('\n')` followed by popping the
last segment — the body of `processMessages`. -/
theorem scanLines_eq_splitNl : ∀ xs : List Char,
    scanLines xs = ((splitNl xs).dropLast, (splitNl xs).getLastD []) := by
  intro xs
  induction xs with
  | nil => rfl
  | cons c cs ih =>
      obtain ⟨h1, t, hS⟩ := List.exists_cons_of_ne_nil (splitNl_ne_nil cs)
      by_cases hc : c = '\n'
      · simp only [PythonClient.scanLines, PythonClient.splitNl, if_pos hc, ih, hS]
        rfl
      · simp only [PythonClient.scanLines, PythonClient.splitNl, if_neg hc, ih, hS]
        cases t with
        | nil => rfl
        | cons t1 t2 => rfl

/-- Chunk composition for the codec: scanning `xs ++ ys` yields the
records of `xs` followed by the records of (fragment of `xs`) ++ `ys`,
with the latter's fragment — i.e. the trailing incomplete fragment is
retained and completed by the next chunk. -/
theorem scanLines_append (xs ys : List Char) :
    scanLines (xs ++ ys)
      = ((scanLines xs).1 ++ (scanLines ((scanLines xs).2 ++ ys)).1,
         (scanLines ((scanLines xs).2 ++ ys)).2) := by
  induction xs with
  | nil => rfl
  | cons c cs ih =>
      by_cases hc : c = '\n'
      · subst hc
        rcases hr2 : scanLines ((scanLines cs).2 ++ ys) with ⟨R2, F2⟩
        simp only [List.cons_append, PythonClient.scanLines, if_pos, ih, hr2,
                   List.append_eq]
      · rcases hr : scanLines cs with ⟨R1, F1⟩
        rcases hr2 : scanLines (F1 ++ ys) with ⟨R2, F2⟩
        have hih : scanLines (cs ++ ys) = (R1 ++ R2, F2) := by
          rw [ih, hr]
          simp [hr2]
        cases R1 with
        | nil =>
            cases R2 with
            | nil =>
                simp [List.cons_append, List.append_eq, PythonClient.scanLines,
                      if_neg hc, hih, hr, hr2, List.nil_append]
            | cons r0 rs =>
                simp [List.cons_append, List.append_eq, PythonClient.scanLines,
                      if_neg hc, hih, hr, hr2, List.nil_append]
        | cons r0 rs =>
            simp [List.cons_append, List.append_eq, PythonClient.scanLines,
                  if_neg hc, hih, hr, hr2, List.nil_append]

/-- Scanning a newline-terminated, newline-free message yields exactly
that one record and an empty buffer. -/
theorem scanLines_newline_free (m : List Char) (h : '\n' ∉ m) :
    scanLines (m ++ ['\n']) = ([m], []) := by
  induction m with
  | nil => rfl
  | cons c cs ih =>
      have hc : c ≠ '\n' := by
        rintro rfl
        exact h (List.mem_cons_self _ _)
      have hcs : '\n' ∉ cs := fun hm => h (List.mem_cons_of_mem c hm)
      simp [List.cons_append, List.append_eq, PythonClient.scanLines, if_neg hc,
            ih hcs]

/-- `feed` is `scanLines` of buffer plus chunk. -/
theorem feed_eq_scanLines (buf chunk : List Char) :
    feed buf chunk = scanLines (buf ++ chunk) := by
  rw [scanLines_eq_splitNl]
  rfl

/-- Feeding two chunks from an empty buffer scans their concatenation. -/
theorem feedAll_pair (a b : List Char) :
    feedAll [] [a, b] = ((scanLines (a ++ b)).1, (scanLines (a ++ b)).2) := by
  simp only [PythonClient.feedAll, feed_eq_scanLines, List.nil_append,
             List.append_nil]
  rw [scanLines_append a b]

/-- Feeding one chunk from an empty buffer scans it. -/
theorem feedAll_single (a : List Char) :
    feedAll [] [a] = ((scanLines a).1, (scanLines a).2) := by
  simp only [PythonClient.feedAll, feed_eq_scanLines, List.nil_append,
             List.append_nil]

/-- Claim C6: for every newline-free message `m` (nonblank, parseable),
delivering the wire bytes `m ++ '\n'` split at any byte offset `i` across
two chunks leaves the codec in exactly the same configuration (records
and buffer) as delivering them in one chunk, and in both cases exactly
the one message parsed from `m` is delivered: the trailing incomplete
fragment of the first chunk is retained in the buffer and completed by
the second chunk. -/
theorem codec_reassembly {α : Type} (m : List Char) (i : Nat)
    (parse : List Char → Option α) (msg : α)
    (hnl : '\n' ∉ m) (hp : parse m = some msg)
    (hws : m.all isWs = false) :
    feedAll [] [(m ++ ['\n']).take i, (m ++ ['\n']).drop i]
      = feedAll [] [m ++ ['\n']]
    ∧ delivered parse
        (feedAll [] [(m ++ ['\n']).take i, (m ++ ['\n']).drop i]).1 = [msg] := by
  have htd : (m ++ ['\n']).take i ++ (m ++ ['\n']).drop i = m ++ ['\n'] :=
    List.take_append_drop i (m ++ ['\n'])
  have hw := scanLines_newline_free m hnl
  have h2 : feedAll [] [(m ++ ['\n']).take i, (m ++ ['\n']).drop i] = ([m], []) := by
    rw [feedAll_pair, htd, hw]
  have h1 : feedAll [] [m ++ ['\n']] = ([m], []) := by
    rw [feedAll_single, hw]
  constructor
  · rw [h2, h1]
  · rw [h2]
    simp [PythonClient.delivered, hws, hp]

/-- Witness for C6: the message consisting of the single byte `a`,
newline-terminated, split after its first byte, is reassembled and
delivered exactly once, identically to single-chunk delivery. -/
theorem codec_reassembly_witness :
    feedAll [] [((['a'] ++ ['\n']).take 1), ((['a'] ++ ['\n']).drop 1)]
      = feedAll [] [['a'] ++ ['\n']]
    ∧ delivered (fun l => if l = ['a'] then some 0 else none)
        (feedAll [] [((['a'] ++ ['\n']).take 1), ((['a'] ++ ['\n']).drop 1)]).1
      = [0] :=
  codec_reassembly ['a'] 1 (fun l => if l = ['a'] then some 0 else none) 0
    (by decide) (by decide) (by decide)

/-- Claim C7: a malformed (unparseable) record followed by a well-formed
record in the inbound stream results in exactly one delivered message:
the malformed record is dropped (whether blank or a parse failure, the
total scan-filter-parse pipeline skips it without raising) and the
well-formed record is processed unaffected. -/
theorem codec_drop_malformed {α : Type} (bad good : List Char)
    (parse : List Char → Option α) (msg : α)
    (hb : '\n' ∉ bad) (hpb : parse bad = none)
    (hg : '\n' ∉ good) (hpg : parse good = some msg)
    (hws : good.all isWs = false) :
    delivered parse (feedAll [] [bad ++ ['\n'] ++ (good ++ ['\n'])]).1 = [msg] := by
  have h1 : feedAll [] [bad ++ ['\n'] ++ (good ++ ['\n'])] = ([bad, good], []) := by
    rw [feedAll_single]
    rw [scanLines_append (bad ++ ['\n']) (good ++ ['\n'])]
    rw [scanLines_newline_free bad hb]
    simp [scanLines_newline_free good hg]
  rw [h1]
  by_cases hbw : bad.all PythonClient.isWs
  · simp [PythonClient.delivered, hbw, hws, hpg]
  · simp only [Bool.not_eq_true] at hbw
    simp [PythonClient.delivered, hbw, hws, hpg, hpb]

/-- Witness for C7: the stream `x\n` then `a\n` under a parser accepting
only `a` delivers exactly the one message parsed from `a`. -/
theorem codec_drop_malformed_witness :
    delivered (fun l => if l = ['a'] then some 0 else none)
      (feedAll [] [['x'] ++ ['\n'] ++ (['a'] ++ ['\n'])]).1 = [0] :=
  codec_drop_malformed ['x'] ['a']
    (fun l => if l = ['a'] then some 0 else none) 0
    (by decide) (by decide) (by decide) (by decide) (by decide)
